import Mathlib

/-!
Verification of the node CPU fingerprint helper (helper/stats/cpu.go), the
evaluation broker contract and the evaluations HTTP list endpoint of the
nomad repository slice.

Modelling conventions.  Go float64 values are embedded as rationals: every
numeric value that actually flows through this code (the hardcoded
3200000000 / 1000000.0 clock value and integer core counts) is exactly
representable in float64, so rational arithmetic coincides with the float
arithmetic the code performs.  math.Floor is the integer floor.  Go errors are
Option String (none = nil); the go-multierror accumulator is a List String
of messages, and ErrorOrNil is none exactly when the list is empty.
External system calls (unix.Sysctl, unix.SysctlUint32, gopsutil cpu.Counts)
are inputs supplied by an environment record: each call returns the pair of
its Go return values (value, error), matching the Go multiple-assignment
semantics in which the value component is assigned even when the error is
non-nil.
-/

namespace NomadStats

/-- Result of a sysctl string read: the (value, error) pair returned by
unix.Sysctl. -/
abbrev SysRes := String × Option String

/-- Result of a sysctl uint32 read: the (value, error) pair returned by
unix.SysctlUint32; the value is reduced mod 2^32 at the use site to embed
the uint32 type. -/
abbrev SysResU32 := Nat × Option String

/-- Host environment for the Darwin sysctl probes performed by
InfoWithContext. -/
structure SysctlEnv where
  str : String → SysRes
  u32 : String → SysResU32

/-- Embedding of context.Context as the data Init puts into it: the
timeout (in nanoseconds) carried by context.WithTimeout. -/
structure Context where
  timeoutNs : Nat

/-- time.Second in nanoseconds. -/
def timeSecond : Nat := 1000000000

/-- cpuInfoTimeout = 60 * time.Second (cpu.go line 21). -/
def cpuInfoTimeout : Nat := 60 * timeSecond

/-- The InfoStat record of cpu.go (lines 86-100).  Mhz is a rational
standing for the Go float64; Stepping, Cores and CacheSize are int32
values embedded as Int. -/
structure InfoStat where
  CPU : Int
  VendorID : String
  Family : String
  Model : String
  Stepping : Int
  PhysicalID : String
  CoreID : String
  Cores : Int
  ModelName : String
  Mhz : ℚ
  CacheSize : Int
  Flags : List String
  Microcode : String
deriving DecidableEq

/-- The zero InfoStat, as produced by the composite literal InfoStat{}. -/
def InfoStat.zero : InfoStat :=
  { CPU := 0, VendorID := "", Family := "", Model := "", Stepping := 0,
    PhysicalID := "", CoreID := "", Cores := 0, ModelName := "", Mhz := 0,
    CacheSize := 0, Flags := [], Microcode := "" }

/-- uint32 read: the value component of a SysctlUint32 call reduced mod
2^32. -/
def u32val (env : SysctlEnv) (name : String) : Nat :=
  (env.u32 name).1 % 4294967296

/-- Go int32(x) conversion of a uint32 value. -/
def int32ofUint32 (n : Nat) : Int :=
  if n % 4294967296 < 2147483648 then (n % 4294967296 : Int)
  else (n % 4294967296 : Int) - 4294967296

/-- strings.Fields: split on whitespace, dropping empty fields. -/
def stringFields (s : String) : List String :=
  (s.split Char.isWhitespace).filter (fun t => t ≠ "")

/-- The flags contributed by one feature sysctl read (cpu.go lines
113-130): when the read succeeds its fields are lowercased and appended,
when it fails nothing is appended. -/
def featureFlags : SysRes → List String
  | (v, none) => (stringFields v).map String.toLower
  | (_, some _) => []

/-- The Darwin InfoWithContext of cpu.go (lines 102-141): reads model
name, family, model, stepping, feature flags, core count, cache size and
vendor from sysctl, discarding every individual sysctl error; Mhz is the
hardcoded 3200000000 / 1000000.0; the context argument is never consulted
and the returned error is always nil. -/
def InfoWithContext (ctx : Context) (env : SysctlEnv) :
    List InfoStat × Option String :=
  let ret : List InfoStat := []
  let c := InfoStat.zero
  let c := { c with ModelName := (env.str "machdep.cpu.brand_string").1 }
  let family := u32val env "machdep.cpu.family"
  let c := { c with Family := toString family }
  let model := u32val env "machdep.cpu.model"
  let c := { c with Model := toString model }
  let stepping := u32val env "machdep.cpu.stepping"
  let c := { c with Stepping := int32ofUint32 stepping }
  let c := { c with Flags := c.Flags
      ++ featureFlags (env.str "machdep.cpu.features")
      ++ featureFlags (env.str "machdep.cpu.leaf7_features")
      ++ featureFlags (env.str "machdep.cpu.extfeatures") }
  let cores := u32val env "machdep.cpu.core_count"
  let c := { c with Cores := int32ofUint32 cores }
  let cacheSize := u32val env "machdep.cpu.cache.size"
  let c := { c with CacheSize := int32ofUint32 cacheSize }
  let c := { c with VendorID := (env.str "machdep.cpu.vendor").1 }
  let cpuFrequency : Int := 3200000000
  let c := { c with Mhz := (cpuFrequency : ℚ) / 1000000 }
  (ret ++ [c], none)

/-- The package-level mutable state of helper/stats (cpu.go lines 24-32),
together with the sync.Once completion flag. -/
structure CpuState where
  cpuMhzPerCore : ℚ
  cpuModelName : String
  cpuNumCores : Int
  cpuTotalTicks : ℚ
  initErr : Option (List String)
  onceDone : Bool
deriving DecidableEq

/-- The zero-initialized package state before any call to Init. -/
def initialState : CpuState :=
  { cpuMhzPerCore := 0, cpuModelName := "", cpuNumCores := 0,
    cpuTotalTicks := 0, initErr := none, onceDone := false }

/-- Error message wrapping for a cpu.Counts failure (cpu.go line 39). -/
def countsErrMsg (e : String) : String :=
  "Unable to determine the number of CPU cores available: " ++ e

/-- Error message wrapping for an InfoWithContext failure (cpu.go line
46). -/
def infoErrMsg (e : String) : String :=
  "Unable to obtain CPU information: " ++ e

/-- The range loop of cpu.go lines 49-53: take the model name and Mhz of
the first InfoStat, then break; an empty slice leaves the state
untouched. -/
def scanFirstInfo (s : CpuState) : List InfoStat → CpuState
  | [] => s
  | c :: _ => { s with cpuModelName := c.ModelName, cpuMhzPerCore := c.Mhz }

/-- The body of the onceLer.Do closure in Init (cpu.go lines 36-61),
abstracted over the results of its two probe calls: countsRes is the
(value, error) pair returned by cpu.Counts(true) and infoRes the pair
returned by InfoWithContext.  Errors are appended to the multierror list;
the slice and count values are assigned regardless of the accompanying
error; Mhz and the total ticks are floored; initErr is set to
ErrorOrNil of the accumulated list. -/
def initOnceBody (countsRes : Int × Option String)
    (infoRes : List InfoStat × Option String) (s : CpuState) : CpuState :=
  let merrs : List String := []
  let s := { s with cpuNumCores := countsRes.1 }
  let merrs :=
    match countsRes.2 with
    | some e => merrs ++ [countsErrMsg e]
    | none => merrs
  let cpuInfo := infoRes.1
  let merrs :=
    match infoRes.2 with
    | some e => merrs ++ [infoErrMsg e]
    | none => merrs
  let s := scanFirstInfo s cpuInfo
  let s := { s with cpuMhzPerCore := (⌊s.cpuMhzPerCore⌋ : ℚ) }
  let s := { s with cpuTotalTicks := (⌊(s.cpuNumCores : ℚ) * s.cpuMhzPerCore⌋ : ℚ) }
  { s with initErr := if merrs.isEmpty then none else some merrs }

/-- The probe environment a call to Init runs against: the result pair of
the external gopsutil cpu.Counts(true) call and the host sysctl table read
by InfoWithContext. -/
structure ProbeEnv where
  counts : Int × Option String
  sysctl : SysctlEnv

/-- The context Init constructs with context.WithTimeout(Background,
cpuInfoTimeout) (cpu.go line 43). -/
def infoCtx : Context := ⟨cpuInfoTimeout⟩

/-- Init (cpu.go lines 34-64): under onceLer the probe body runs only on
the first call; every call returns the memoized initErr. -/
def Init (env : ProbeEnv) (s : CpuState) : CpuState × Option (List String) :=
  if s.onceDone then (s, s.initErr)
  else
    let s1 := initOnceBody env.counts (InfoWithContext infoCtx env.sysctl) s
    let s2 := { s1 with onceDone := true }
    (s2, s2.initErr)

/-- CPUNumCores accessor (cpu.go lines 67-69). -/
def CPUNumCores (s : CpuState) : Int := s.cpuNumCores

/-- CPUMHzPerCore accessor (cpu.go lines 72-74). -/
def CPUMHzPerCore (s : CpuState) : ℚ := s.cpuMhzPerCore

/-- CPUModelName accessor (cpu.go lines 77-79). -/
def CPUModelName (s : CpuState) : String := s.cpuModelName

/-- TotalTicksAvailable accessor (cpu.go lines 82-84). -/
def TotalTicksAvailable (s : CpuState) : ℚ := s.cpuTotalTicks

/-- The raw per-core MHz delivered by an info probe result: the Mhz of the
first InfoStat, or 0 (the initial value of cpuMhzPerCore) when the slice
is empty. -/
def firstMhz : List InfoStat → ℚ
  | [] => 0
  | c :: _ => c.Mhz

/-- The model name delivered by an info probe result: that of the first
InfoStat, or the empty string when the slice is empty. -/
def firstModelName : List InfoStat → String
  | [] => ""
  | c :: _ => c.ModelName

/-- A concrete host whose every numeric sysctl reads 1500 (standing for a
measured 1500 MHz clock). -/
def hostSlow : SysctlEnv := ⟨fun _ => ("slow-host", none), fun _ => (1500, none)⟩

/-- A concrete host whose every numeric sysctl reads 2900 (standing for a
measured 2900 MHz clock). -/
def hostFast : SysctlEnv := ⟨fun _ => ("fast-host", none), fun _ => (2900, none)⟩

/-- A concrete host environment used to probe context handling. -/
def probeHost : SysctlEnv := ⟨fun _ => ("probe-host", none), fun _ => (8, none)⟩

lemma initOnceBody_cpuNumCores (c : Int × Option String)
    (i : List InfoStat × Option String) (s : CpuState) :
    (initOnceBody c i s).cpuNumCores = c.1 := by
  obtain ⟨cv, ce⟩ := c
  obtain ⟨iv, ie⟩ := i
  cases ce <;> cases ie <;> cases iv <;>
    simp [initOnceBody, scanFirstInfo]

lemma initOnceBody_cpuMhzPerCore (c : Int × Option String)
    (i : List InfoStat × Option String) :
    (initOnceBody c i initialState).cpuMhzPerCore = (⌊ firstMhz i.1 ⌋ : ℚ) := by
  obtain ⟨cv, ce⟩ := c
  obtain ⟨iv, ie⟩ := i
  cases ce <;> cases ie <;> cases iv <;>
    simp [initOnceBody, scanFirstInfo, firstMhz, initialState]

lemma initOnceBody_cpuTotalTicks (c : Int × Option String)
    (i : List InfoStat × Option String) :
    (initOnceBody c i initialState).cpuTotalTicks
      = (⌊(c.1 : ℚ) * (⌊ firstMhz i.1 ⌋ : ℚ)⌋ : ℚ) := by
  obtain ⟨cv, ce⟩ := c
  obtain ⟨iv, ie⟩ := i
  cases ce <;> cases ie <;> cases iv <;>
    simp [initOnceBody, scanFirstInfo, firstMhz, initialState]

lemma initOnceBody_cpuModelName (c : Int × Option String)
    (i : List InfoStat × Option String) :
    (initOnceBody c i initialState).cpuModelName = firstModelName i.1 := by
  obtain ⟨cv, ce⟩ := c
  obtain ⟨iv, ie⟩ := i
  cases ce <;> cases ie <;> cases iv <;>
    simp [initOnceBody, scanFirstInfo, firstModelName, initialState]

lemma initOnceBody_initErr (c : Int × Option String)
    (i : List InfoStat × Option String) (s : CpuState) :
    (initOnceBody c i s).initErr
      = (match c.2, i.2 with
         | none, none => none
         | some e, none => some [countsErrMsg e]
         | none, some e => some [infoErrMsg e]
         | some e, some e2 => some [countsErrMsg e, infoErrMsg e2]) := by
  obtain ⟨cv, ce⟩ := c
  obtain ⟨iv, ie⟩ := i
  cases ce <;> cases ie <;> cases iv <;>
    simp [initOnceBody, scanFirstInfo]

lemma Init_fresh (env : ProbeEnv) :
    (Init env initialState).1
      = { initOnceBody env.counts (InfoWithContext infoCtx env.sysctl) initialState
          with onceDone := true } := rfl

lemma infoWithContext_snd (ctx : Context) (env : SysctlEnv) :
    (InfoWithContext ctx env).2 = none := rfl

lemma infoWithContext_firstMhz (ctx : Context) (env : SysctlEnv) :
    firstMhz (InfoWithContext ctx env).1 = 3200 := by
  show ((3200000000 : Int) : ℚ) / 1000000 = 3200
  norm_num

lemma floor_const_mhz : ⌊ (3200 : ℚ) ⌋ = 3200 := by
  rw [Int.floor_eq_iff] <;> norm_num

lemma infoWithContext_firstModelName (ctx : Context) (env : SysctlEnv) :
    firstModelName (InfoWithContext ctx env).1
      = (env.str "machdep.cpu.brand_string").1 := rfl

/-- C1: after Init completes, the memoized total ticks equal the floor of
the product of the probed core count and the per-core MHz, the per-core
MHz having itself been floored first: TotalTicksAvailable = floor(CPUNumCores
* floor(rawMhz)) and CPUMHzPerCore = floor(rawMhz), where rawMhz is the
Mhz delivered by the info probe. -/
theorem init_total_ticks_floored (env : ProbeEnv) :
    CPUMHzPerCore (Init env initialState).1
      = (⌊ firstMhz (InfoWithContext infoCtx env.sysctl).1 ⌋ : ℚ)
    ∧ TotalTicksAvailable (Init env initialState).1
      = (⌊(CPUNumCores (Init env initialState).1 : ℚ)
          * (⌊ firstMhz (InfoWithContext infoCtx env.sysctl).1 ⌋ : ℚ)⌋ : ℚ) := by
  constructor
  · rw [Init_fresh]
    show (initOnceBody env.counts (InfoWithContext infoCtx env.sysctl) initialState).cpuMhzPerCore = _
    exact initOnceBody_cpuMhzPerCore _ _
  · rw [Init_fresh]
    show (initOnceBody env.counts (InfoWithContext infoCtx env.sysctl) initialState).cpuTotalTicks = _
    rw [initOnceBody_cpuTotalTicks]
    show _ = (⌊((initOnceBody env.counts (InfoWithContext infoCtx env.sysctl) initialState).cpuNumCores : ℚ) * _⌋ : ℚ)
    rw [initOnceBody_cpuNumCores]

/-- C2: Init is computed once and memoized: after a first call on the
fresh state, any later call, against any environment, returns the
identical cached error and leaves the package state unchanged. -/
theorem init_memoized_once (env1 env2 : ProbeEnv) :
    Init env2 (Init env1 initialState).1
      = ((Init env1 initialState).1, (Init env1 initialState).2)
    ∧ (Init env1 initialState).2 = (Init env1 initialState).1.initErr := by
  exact ⟨rfl, rfl⟩

/-- C3: the once body aggregates partial probe failures instead of
failing fast: initErr collects the wrapped message of each failed
sub-probe and is nil exactly when both succeeded, while the model name and
per-core MHz are taken from the info result and the core count from the
counts result regardless of the other probe failing. -/
theorem init_partial_failure_aggregation (c : Int × Option String)
    (i : List InfoStat × Option String) :
    ((initOnceBody c i initialState).initErr
      = (match c.2, i.2 with
         | none, none => none
         | some e, none => some [countsErrMsg e]
         | none, some e => some [infoErrMsg e]
         | some e, some e2 => some [countsErrMsg e, infoErrMsg e2]))
    ∧ ((initOnceBody c i initialState).initErr = none ↔ (c.2 = none ∧ i.2 = none))
    ∧ (initOnceBody c i initialState).cpuModelName = firstModelName i.1
    ∧ (initOnceBody c i initialState).cpuMhzPerCore = (⌊ firstMhz i.1 ⌋ : ℚ)
    ∧ (initOnceBody c i initialState).cpuNumCores = c.1 := by
  refine ⟨initOnceBody_initErr c i initialState, ?_,
    initOnceBody_cpuModelName c i, initOnceBody_cpuMhzPerCore c i,
    initOnceBody_cpuNumCores c i initialState⟩
  rw [initOnceBody_initErr]
  obtain ⟨cv, ce⟩ := c
  obtain ⟨iv, ie⟩ := i
  cases ce <;> cases ie <;> simp

/-- C5: the computed total ticks are a deterministic function of the raw
probe inputs, and two hosts with equal core counts whose raw MHz floor to
the same integer get equal TotalComputeTicks, hence the same computed
class. -/
theorem total_ticks_flooring_stable
    (c1 c2 : Int × Option String) (i1 i2 : List InfoStat × Option String)
    (hc : c1.1 = c2.1) (hm : ⌊ firstMhz i1.1 ⌋ = ⌊ firstMhz i2.1 ⌋) :
    TotalTicksAvailable (initOnceBody c1 i1 initialState)
      = TotalTicksAvailable (initOnceBody c2 i2 initialState) := by
  show (initOnceBody c1 i1 initialState).cpuTotalTicks
    = (initOnceBody c2 i2 initialState).cpuTotalTicks
  rw [initOnceBody_cpuTotalTicks, initOnceBody_cpuTotalTicks, hc, hm]

/-- An info probe reading whose raw MHz is 2400.7. -/
def infoStatMhzA : InfoStat := { InfoStat.zero with Mhz := (24007 : ℚ) / 10 }

/-- An info probe reading whose raw MHz is 2400.2, within one unit of
infoStatMhzA. -/
def infoStatMhzB : InfoStat := { InfoStat.zero with Mhz := (24002 : ℚ) / 10 }

lemma floor_mhzA : ⌊ firstMhz [infoStatMhzA] ⌋ = 2400 := by
  show ⌊ (24007 : ℚ) / 10 ⌋ = 2400
  rw [Int.floor_eq_iff] <;> norm_num

lemma floor_mhzB : ⌊ firstMhz [infoStatMhzB] ⌋ = 2400 := by
  show ⌊ (24002 : ℚ) / 10 ⌋ = 2400
  rw [Int.floor_eq_iff] <;> norm_num

/-- Witness for total_ticks_flooring_stable: two four-core hosts whose raw
MHz readings 2400.7 and 2400.2 floor to the same integer compute equal
total ticks. -/
theorem total_ticks_flooring_stable_witness :
    (4 : Int) = 4 ∧ (⌊ firstMhz [infoStatMhzA] ⌋ = ⌊ firstMhz [infoStatMhzB] ⌋)
    ∧ TotalTicksAvailable (initOnceBody (4, none) ([infoStatMhzA], none) initialState)
      = TotalTicksAvailable (initOnceBody (4, none) ([infoStatMhzB], none) initialState) :=
  ⟨rfl, by rw [floor_mhzA, floor_mhzB],
    total_ticks_flooring_stable (4, none) (4, none) ([infoStatMhzA], none)
      ([infoStatMhzB], none) rfl (by rw [floor_mhzA, floor_mhzB])⟩

/-- C9: before Init has ever run, every accessor returns the Go zero
value: 0 cores, 0 MHz, empty model name, 0 total ticks; the accessors are
pure reads of the package state. -/
theorem accessors_zero_before_init :
    CPUNumCores initialState = 0 ∧ CPUMHzPerCore initialState = 0
    ∧ CPUModelName initialState = "" ∧ TotalTicksAvailable initialState = 0 :=
  ⟨rfl, rfl, rfl, rfl⟩

/-- C10: InfoWithContext always returns a nil error and exactly one
InfoStat, for every context and host; consequently the info-error branch
of Init is dead and the combined Init error is determined by the counts
probe alone. -/
theorem info_with_context_never_fails (ctx : Context) (env : SysctlEnv)
    (penv : ProbeEnv) :
    (InfoWithContext ctx env).2 = none
    ∧ (InfoWithContext ctx env).1.length = 1
    ∧ (Init penv initialState).1.initErr
        = (match penv.counts.2 with
           | none => none
           | some e => some [countsErrMsg e]) := by
  refine ⟨rfl, rfl, ?_⟩
  rw [Init_fresh]
  show (initOnceBody penv.counts (InfoWithContext infoCtx penv.sysctl) initialState).initErr = _
  rw [initOnceBody_initErr]
  rw [infoWithContext_snd]
  rcases penv.counts.2 with _ | e <;> rfl

/-- Counterexample to C4: two hosts whose every numeric sysctl reads 1500
and 2900 respectively (standing for measured clocks of 1500 MHz and 2900
MHz) both end up with CPUMHzPerCore = 3200 after Init; the fingerprint
does not reflect either measured clock speed. -/
theorem mhz_not_host_determined_counterexample :
    CPUMHzPerCore (Init ⟨(4, none), hostSlow⟩ initialState).1 = 3200
    ∧ CPUMHzPerCore (Init ⟨(4, none), hostFast⟩ initialState).1 = 3200
    ∧ (1500 : ℚ) ≠ 3200 ∧ (2900 : ℚ) ≠ 3200 := by
  refine ⟨?_, ?_, by norm_num, by norm_num⟩ <;>
  · rw [Init_fresh]
    show (initOnceBody _ (InfoWithContext infoCtx _) initialState).cpuMhzPerCore = _
    rw [initOnceBody_cpuMhzPerCore, infoWithContext_firstMhz, floor_const_mhz]
    norm_num

/-- Amended C4: the per-core MHz the fingerprint records is the hardcoded
constant 3200 for every host and every context — no clock-speed sysctl is
probed — while the model name genuinely comes from the host
machdep.cpu.brand_string reading. -/
theorem mhz_hardcoded_constant (ctx : Context) (env : SysctlEnv)
    (penv : ProbeEnv) :
    firstMhz (InfoWithContext ctx env).1 = 3200
    ∧ CPUMHzPerCore (Init penv initialState).1 = 3200
    ∧ firstModelName (InfoWithContext ctx env).1
        = (env.str "machdep.cpu.brand_string").1 := by
  refine ⟨infoWithContext_firstMhz ctx env, ?_, infoWithContext_firstModelName ctx env⟩
  rw [Init_fresh]
  show (initOnceBody penv.counts (InfoWithContext infoCtx penv.sysctl) initialState).cpuMhzPerCore = _
  rw [initOnceBody_cpuMhzPerCore, infoWithContext_firstMhz, floor_const_mhz]
  norm_num

/-- Counterexample to C6: with a deadline of zero nanoseconds the probe
behaves exactly as with the sixty-second deadline Init installs and still
succeeds — InfoWithContext never consults the context, so the bound is not
enforced by the implementation of this platform. -/
theorem info_timeout_not_enforced_counterexample :
    InfoWithContext ⟨0⟩ probeHost = InfoWithContext infoCtx probeHost
    ∧ (InfoWithContext ⟨0⟩ probeHost).2 = none :=
  ⟨rfl, rfl⟩

/-- Amended C6: the context Init passes to InfoWithContext carries a
timeout of exactly sixty seconds, but the platform implementation under
src ignores the context entirely, so the bound has no effect on the probe
result. -/
theorem info_timeout_sixty_seconds (ctx ctx2 : Context) (env : SysctlEnv) :
    cpuInfoTimeout = 60 * timeSecond
    ∧ infoCtx.timeoutNs = cpuInfoTimeout
    ∧ InfoWithContext ctx env = InfoWithContext ctx2 env :=
  ⟨rfl, rfl, rfl⟩

end NomadStats

namespace NomadEval

/-- Modelled from the spec: an evaluation as the Broker sees it (spec §3
and §4.2) — the Broker implementation is not under src, only its contract;
the fields kept are the ones its ordering and supersession keys use: ID,
JobID, Priority and CreateIndex. -/
structure BrokerEval where
  id : String
  jobID : String
  priority : Int
  createIndex : Nat
deriving DecidableEq

/-- Modelled from the spec: the (Priority desc, CreateIndex asc) queue
order of spec §4.2 — a comes no later than b when a has strictly higher
priority, or equal priority and a CreateIndex no larger. -/
def brokerLE (a b : BrokerEval) : Prop :=
  b.priority < a.priority ∨ (a.priority = b.priority ∧ a.createIndex ≤ b.createIndex)

instance : DecidableRel brokerLE := fun a b => by
  unfold brokerLE; exact inferInstance

instance : IsTotal BrokerEval brokerLE :=
  ⟨fun a b => by unfold brokerLE; omega⟩

instance : IsTrans BrokerEval brokerLE :=
  ⟨fun a b c hab hbc => by unfold brokerLE at hab hbc ⊢; omega⟩

/-- Modelled from the spec: the Broker state of spec §4.2 — the pending
queue kept in (Priority desc, CreateIndex asc) order, the JobIDs currently
in flight, and the evaluations canceled by supersession. -/
structure BrokerState where
  queue : List BrokerEval
  inFlight : List String
  canceled : List BrokerEval

/-- Modelled from the spec: the empty Broker. -/
def emptyBroker : BrokerState := ⟨[], [], []⟩

/-- Modelled from the spec: Enqueue (spec §4.2) — any queued evaluation
for the same JobID is superseded (moved to canceled) and the new one is
inserted at its (Priority desc, CreateIndex asc) position. -/
def enqueue (e : BrokerEval) (b : BrokerState) : BrokerState :=
  { queue := List.orderedInsert brokerLE e
      (b.queue.filter (fun x => !(x.jobID == e.jobID))),
    inFlight := b.inFlight,
    canceled := b.canceled ++ b.queue.filter (fun x => x.jobID == e.jobID) }

/-- Enqueue a list of evaluations in the given order. -/
def enqueueAll : List BrokerEval → BrokerState → BrokerState
  | [], b => b
  | e :: rest, b => enqueueAll rest (enqueue e b)

/-- Modelled from the spec: the scan Dequeue performs — the first queued
evaluation whose JobID is not in flight, together with the queue with that
evaluation removed (spec §4.2: while dequeued an evaluation is in flight
and no second evaluation of the same job may be handed out). -/
def dequeueScan (f : List String) : List BrokerEval → Option (BrokerEval × List BrokerEval)
  | [] => none
  | e :: rest =>
    if f.contains e.jobID then
      match dequeueScan f rest with
      | some p => some (p.1, e :: p.2)
      | none => none
    else some (e, rest)

/-- Modelled from the spec: the sequence of evaluations a worker obtains
by calling Dequeue repeatedly (spec §4.2); each dequeued evaluation is
removed from the queue and its JobID marked in flight; fuel bounds the
number of calls. -/
def drainBroker : Nat → BrokerState → List BrokerEval
  | 0, _ => []
  | fuel + 1, b =>
    match dequeueScan b.inFlight b.queue with
    | none => []
    | some (e, r) =>
      e :: drainBroker fuel { queue := r, inFlight := e.jobID :: b.inFlight,
                              canceled := b.canceled }

lemma enqueue_sorted (e : BrokerEval) (b : BrokerState)
    (h : List.Pairwise brokerLE b.queue) :
    List.Pairwise brokerLE (enqueue e b).queue :=
  List.Sorted.orderedInsert e _ (List.Pairwise.filter _ h)

lemma enqueueAll_sorted : ∀ (l : List BrokerEval) (b : BrokerState),
    List.Pairwise brokerLE b.queue →
    List.Pairwise brokerLE (enqueueAll l b).queue
  | [], _, h => h
  | e :: rest, b, h => enqueueAll_sorted rest (enqueue e b) (enqueue_sorted e b h)

lemma dequeueScan_spec (f : List String) :
    ∀ (q : List BrokerEval) (e : BrokerEval) (r : List BrokerEval),
      dequeueScan f q = some (e, r) →
      ∃ pre post, q = pre ++ e :: post ∧ r = pre ++ post
        ∧ (∀ x ∈ pre, f.contains x.jobID = true)
        ∧ f.contains e.jobID = false := by
  intro q
  induction q with
  | nil => intro e r h; simp [dequeueScan] at h
  | cons a rest ih =>
    intro e r h
    rw [dequeueScan] at h
    by_cases hf : f.contains a.jobID
    · rw [if_pos hf] at h
      rcases h2 : dequeueScan f rest with _ | p
      · rw [h2] at h; exact absurd h (by simp)
      · rw [h2] at h
        obtain ⟨x, r2⟩ := p
        simp only [Option.some.injEq, Prod.mk.injEq] at h
        obtain ⟨he, hr⟩ := h
        subst he
        subst hr
        obtain ⟨pre, post, hq, hrr, hpre, hce⟩ := ih _ _ h2
        refine ⟨a :: pre, post, by simp [hq], by simp [hrr], ?_, hce⟩
        intro y hy
        rcases List.mem_cons.mp hy with hy | hy
        · rw [hy]; exact hf
        · exact hpre y hy
    · rw [if_neg hf] at h
      simp only [Option.some.injEq, Prod.mk.injEq] at h
      obtain ⟨he, hr⟩ := h
      refine ⟨[], rest, by simp [he], by simp [hr], by simp, ?_⟩
      rw [← he]
      exact Bool.not_eq_true _ ▸ (by simpa using hf)

lemma drain_mem : ∀ (fuel : Nat) (b : BrokerState) (y : BrokerEval),
    y ∈ drainBroker fuel b →
    y ∈ b.queue ∧ b.inFlight.contains y.jobID = false := by
  intro fuel
  induction fuel with
  | zero => intro b y hy; simp [drainBroker] at hy
  | succ n ih =>
    intro b y hy
    rw [drainBroker] at hy
    rcases h : dequeueScan b.inFlight b.queue with _ | p
    · rw [h] at hy; simp at hy
    · rw [h] at hy
      obtain ⟨e, r⟩ := p
      obtain ⟨pre, post, hq, hr, _, hce⟩ := dequeueScan_spec _ _ _ _ h
      rcases List.mem_cons.mp hy with hy | hy
      · subst hy
        exact ⟨by rw [hq]; simp, hce⟩
      · obtain ⟨hyr, hyf⟩ := ih _ y hy
        simp only [List.contains_cons, Bool.or_eq_false_iff] at hyf
        refine ⟨?_, hyf.2⟩
        rw [hq]
        rw [hr] at hyr
        rcases List.mem_append.mp hyr with hm | hm
        · exact List.mem_append.mpr (Or.inl hm)
        · exact List.mem_append.mpr (Or.inr (List.mem_cons_of_mem _ hm))

lemma drain_sorted : ∀ (fuel : Nat) (b : BrokerState),
    List.Pairwise brokerLE b.queue →
    List.Pairwise brokerLE (drainBroker fuel b) := by
  intro fuel
  induction fuel with
  | zero => intro b _; simp [drainBroker]
  | succ n ih =>
    intro b hb
    rw [drainBroker]
    rcases h : dequeueScan b.inFlight b.queue with _ | p
    · exact List.Pairwise.nil
    · obtain ⟨e, r⟩ := p
      obtain ⟨pre, post, hq, hr, hpre, _⟩ := dequeueScan_spec _ _ _ _ h
      have hrs : List.Pairwise brokerLE r := by
        rw [hr]
        refine hb.sublist ?_
        rw [hq]
        exact (List.sublist_cons_self e post).append_left pre
      refine List.Pairwise.cons ?_ (ih _ hrs)
      intro y hy
      obtain ⟨hyr, hyf⟩ := drain_mem n _ y hy
      simp only [List.contains_cons, Bool.or_eq_false_iff] at hyf
      rw [hr] at hyr
      rcases List.mem_append.mp hyr with hm | hm
      · exact absurd (hpre y hm) (by rw [hyf.2]; simp)
      · have : List.Pairwise brokerLE (e :: post) := by
          refine hb.sublist ?_
          rw [hq]
          exact List.sublist_append_right pre (e :: post)
        exact (List.pairwise_cons.mp this).1 y hm

/-- C8, modelled from the spec (the Broker is not under src): whatever the
order a set of evaluations is enqueued in, the sequence of successive
Dequeue results is ordered by non-increasing Priority with ties broken by
ascending CreateIndex, i.e. pairwise ordered by brokerLE. -/
theorem broker_dequeue_priority_order (evals : List BrokerEval) (fuel : Nat) :
    List.Pairwise brokerLE (drainBroker fuel (enqueueAll evals emptyBroker)) :=
  drain_sorted fuel _ (enqueueAll_sorted evals emptyBroker List.Pairwise.nil)

/-- Hexadecimal digit in the sense of the API documentation: 0-9a-f. -/
def isHexDigit (c : Char) : Bool :=
  (decide ('0' ≤ c) && decide (c ≤ '9')) || (decide ('a' ≤ c) && decide (c ≤ 'f'))

/-- Modelled from the spec: a prefix value is decodable to bytes exactly
when it consists of hex digits and has even length (the documentation
states the value is decoded to bytes, so the hex character count must be
even). -/
def hexDecodable (s : String) : Bool :=
  (s.length % 2 == 0) && s.toList.all isHexDigit

/-- Modelled from the spec: the outcome of the evaluations list endpoint —
either a client error produced at the HTTP boundary, or the filtered
listing computed from the store. -/
inductive ListResponse where
  | clientError (code : Nat) (msg : String)
  | listing (evals : List BrokerEval)
deriving DecidableEq

/-- Modelled from the spec: the list-evaluations handler restricted to the
prefix parameter (handler code is not under src): an undecodable prefix is
rejected with a 400 client error before any evaluation data is consulted;
a decodable prefix filters the evaluations by ID prefix. -/
def listEvaluations (pfx : String) (evals : List BrokerEval) : ListResponse :=
  if hexDecodable pfx then
    .listing (evals.filter (fun e => pfx.isPrefixOf e.id))
  else .clientError 400 "invalid prefix"

/-- C7, modelled from the spec (the handler is not under src): a prefix of
hex characters with odd length is rejected at the boundary with a client
error, and the rejection is computed without consulting the evaluation
data, so the request never reaches the Broker or Scheduler; an even-length
hex prefix is accepted and acts as an ID-prefix filter. -/
theorem eval_list_pfx_boundary (p : String) (evals : List BrokerEval)
    (hhex : p.toList.all isHexDigit = true) :
    (p.length % 2 = 1 →
      listEvaluations p evals = .clientError 400 "invalid prefix"
      ∧ ∀ other : List BrokerEval, listEvaluations p evals = listEvaluations p other)
    ∧ (p.length % 2 = 0 →
      listEvaluations p evals
        = .listing (evals.filter (fun e => p.isPrefixOf e.id))) := by
  constructor
  · intro hodd
    have hdec : hexDecodable p = false := by simp [hexDecodable, hodd]
    exact ⟨by simp [listEvaluations, hdec],
      fun other => by simp [listEvaluations, hdec]⟩
  · intro heven
    have hdec : hexDecodable p = true := by
      unfold hexDecodable
      rw [heven, hhex]
      rfl
    simp [listEvaluations, hdec]

/-- Witness for eval_list_pfx_boundary: the odd-length hex prefix abc is
rejected with the 400 client error while the even-length hex prefix ab is
accepted and filters the empty listing. -/
theorem eval_list_pfx_boundary_witness :
    listEvaluations "abc" [] = .clientError 400 "invalid prefix"
    ∧ listEvaluations "ab" [] = .listing [] :=
  ⟨((eval_list_pfx_boundary "abc" [] (by decide)).1 (by decide)).1,
   (eval_list_pfx_boundary "ab" [] (by decide)).2 (by decide)⟩

end NomadEval

